import Mathlib

/-!
Verification of the relaxed-rigid contact solver (`jaxsim/rbda/contacts/relaxed_rigid.py`).

Shallow embedding over exact rationals:
* `RelaxedRigidContactsParams` with `build` and `valid` mirror the source class.
* `PyValue` models Python values of solver options, with hashability of each
  constructor matching CPython (`list` unhashable, `tuple` hashable iff its
  elements are); `RelaxedRigidContacts.build` mirrors the merge-and-hash check.
* `imp_aref`, `compute_row`, `regularizers` mirror `_regularizers`.
* `run_optimization` mirrors the inner `jax.lax.while_loop`; the optax L-BFGS
  update is embedded as the standard two-loop recursion with the zoom line
  search abstracted to a caller-supplied step-size function (the line search
  only contributes a scalar step length along the computed direction).
* `compute_contact_forces` composes the pieces exactly as the source does.
-/

namespace RelaxedRigid

/-- Models `jnp.power` for rational base and exponent.  Exact whenever the
exponent is an integer (the only case exercised by the statements below; for
the default parameters the exponent `power` is 1).  A non-integer exponent is
a transcendental real power, outside the rational embedding, and is mapped to
a junk value that no theorem in this file depends on. -/
def qpow (b e : ℚ) : ℚ :=
  if e.den = 1 then
    (if 0 ≤ e.num then b ^ e.num.toNat else (b ^ (-e.num).toNat)⁻¹)
  else 0

/-- The ten scalar fields of `RelaxedRigidContactsParams` (source lines 27-79). -/
structure RelaxedRigidContactsParams where
  time_constant : ℚ
  damping_coefficient : ℚ
  d_min : ℚ
  d_max : ℚ
  width : ℚ
  midpoint : ℚ
  power : ℚ
  stiffness : ℚ
  damping : ℚ
  mu : ℚ
deriving DecidableEq, Repr

/-- `RelaxedRigidContactsParams.build` (source lines 102-162): every field is
optional and falls back to the dataclass default; the given values are stored
unchanged and no validation is performed. -/
def RelaxedRigidContactsParams.build
    (time_constant damping_coefficient d_min d_max width midpoint power
      stiffness damping mu : Option ℚ) : RelaxedRigidContactsParams where
  time_constant := time_constant.getD (1 / 100)
  damping_coefficient := damping_coefficient.getD 1
  d_min := d_min.getD (9 / 10)
  d_max := d_max.getD (19 / 20)
  width := width.getD (1 / 10000)
  midpoint := midpoint.getD (1 / 10)
  power := power.getD 1
  stiffness := stiffness.getD 0
  damping := damping.getD 0
  mu := mu.getD (1 / 2)

/-- The parameters built with all-default fields. -/
def defaultParams : RelaxedRigidContactsParams :=
  RelaxedRigidContactsParams.build none none none none none none none none none none

/-- `RelaxedRigidContactsParams.valid` (source lines 164-176), verbatim list of
the nine conjuncts actually checked by the code. -/
def RelaxedRigidContactsParams.valid (p : RelaxedRigidContactsParams) : Bool :=
  decide (0 ≤ p.time_constant)
    && decide (0 < p.damping_coefficient)
    && decide (0 ≤ p.d_min)
    && decide (p.d_max ≤ 1)
    && decide (p.d_min ≤ p.d_max)
    && decide (0 ≤ p.width)
    && decide (0 ≤ p.midpoint)
    && decide (0 ≤ p.power)
    && decide (0 ≤ p.mu)

/-- The ranges the specification (§3) claims `valid()` enforces, written from
the claim text: Ω ≥ 0, ζ > 0, 0 ≤ d_min ≤ d_max ≤ 1, width > 0,
midpoint ∈ (0, 1), power ≥ 1, μ ≥ 0. -/
def specValidRanges (p : RelaxedRigidContactsParams) : Prop :=
  0 ≤ p.time_constant ∧ 0 < p.damping_coefficient ∧
    0 ≤ p.d_min ∧ p.d_min ≤ p.d_max ∧ p.d_max ≤ 1 ∧
    0 < p.width ∧ 0 < p.midpoint ∧ p.midpoint < 1 ∧ 1 ≤ p.power ∧ 0 ≤ p.mu

instance (p : RelaxedRigidContactsParams) : Decidable (specValidRanges p) := by
  unfold specValidRanges; infer_instance

/-- `RelaxedRigidContactsParams.__eq__` (source lines 99-100): equality of two
parameter objects is decided purely by comparing their hashes.  The hash
implementation itself (`__hash__`, built on `HashedNumpyArray` from
`jaxsim.utils.wrappers`, outside the given sources) is abstracted as an
arbitrary function `h`. -/
def RelaxedRigidContactsParams.eq (h : RelaxedRigidContactsParams → ℤ)
    (p q : RelaxedRigidContactsParams) : Bool :=
  decide (h p = h q)

/-- Python values that can appear among the solver options, with the
constructor-level hashability rules of CPython. -/
inductive PyValue where
  | pyFloat : ℚ → PyValue
  | pyInt : ℤ → PyValue
  | pyStr : String → PyValue
  | pyTuple : List PyValue → PyValue
  | pyList : List PyValue → PyValue

mutual

/-- Whether `hash(v)` succeeds in Python: floats, ints and strings are
hashable, lists are not, and a tuple is hashable iff all its elements are. -/
def PyValue.hashable : PyValue → Bool
  | .pyFloat _ => true
  | .pyInt _ => true
  | .pyStr _ => true
  | .pyTuple xs => PyValue.allHashable xs
  | .pyList _ => false

/-- Conjunction of `PyValue.hashable` over a list. -/
def PyValue.allHashable : List PyValue → Bool
  | [] => true
  | x :: xs => x.hashable && PyValue.allHashable xs

end

/-- Python dict union `d1 | d2` on association lists with unique keys: keys of
`d1` keep their position (values overridden by `d2` where present), then keys
of `d2` not in `d1` are appended in order. -/
def dictUnion (d1 d2 : List (String × PyValue)) : List (String × PyValue) :=
  (d1.map fun kv =>
    (kv.1, match d2.find? (fun kv2 => kv2.1 == kv.1) with
           | some kv2 => kv2.2
           | none => kv.2))
    ++ d2.filter fun kv2 => !(d1.any fun kv => kv.1 == kv2.1)

/-- The default solver options of `RelaxedRigidContacts`
(source lines 191-196): `tol = 1e-6`, `maxiter = 50`, `memory_size = 10`. -/
def defaultSolverOptions : List (String × PyValue) :=
  [("tol", .pyFloat (1 / 1000000)), ("maxiter", .pyInt 50),
    ("memory_size", .pyInt 10)]

/-- The `RelaxedRigidContacts` model object: parameters plus the flattened
static solver options (source lines 179-207).  The terrain is carried only by
the kinematics inputs below. -/
structure RelaxedRigidContacts where
  parameters : RelaxedRigidContactsParams
  solver_options : List (String × PyValue)

/-- `RelaxedRigidContacts.build` (source lines 209-265): merge the defaults
with the user options, then check `hash(tuple(solver_options.values()))`; a
`TypeError` there (i.e. some merged value unhashable) is re-raised as a
`ValueError`.  On success the merged options are stored. -/
def RelaxedRigidContacts.build (parameters : Option RelaxedRigidContactsParams)
    (solver_options : Option (List (String × PyValue))) :
    Except String RelaxedRigidContacts :=
  let merged := dictUnion defaultSolverOptions (solver_options.getD [])
  if merged.all (fun kv => kv.2.hashable) then
    .ok ⟨parameters.getD defaultParams, merged⟩
  else
    .error "The values of the solver options must be hashable."

/-- Determinant of a 3×3 rational matrix, by cofactor expansion along the
first row. -/
def det3 (M : Matrix (Fin 3) (Fin 3) ℚ) : ℚ :=
  M 0 0 * (M 1 1 * M 2 2 - M 1 2 * M 2 1)
    - M 0 1 * (M 1 0 * M 2 2 - M 1 2 * M 2 0)
    + M 0 2 * (M 1 0 * M 2 1 - M 1 1 * M 2 0)

/-- Explicit 3×3 matrix inverse (adjugate over determinant), implementing the
`jnp.linalg.inv` call of `_regularizers` on the translational inertia block. -/
def inv3 (M : Matrix (Fin 3) (Fin 3) ℚ) : Matrix (Fin 3) (Fin 3) ℚ :=
  (1 / det3 M) • Matrix.of
    ![![M 1 1 * M 2 2 - M 1 2 * M 2 1,
        M 0 2 * M 2 1 - M 0 1 * M 2 2,
        M 0 1 * M 1 2 - M 0 2 * M 1 1],
      ![M 1 2 * M 2 0 - M 1 0 * M 2 2,
        M 0 0 * M 2 2 - M 0 2 * M 2 0,
        M 0 2 * M 1 0 - M 0 0 * M 1 2],
      ![M 1 0 * M 2 1 - M 1 1 * M 2 0,
        M 0 1 * M 2 0 - M 0 0 * M 2 1,
        M 0 0 * M 1 1 - M 0 1 * M 1 0]]

/-- Output of `imp_aref` (source lines 552-586): the componentwise impedance
`imp`, the reference acceleration `a_ref`, and the effective stiffness and
damping scalars. -/
structure ImpOut where
  imp : Fin 3 → ℚ
  a_ref : Fin 3 → ℚ
  K_f : ℚ
  D_f : ℚ

/-- `imp_aref` (source lines 552-586), transliterated: the impedance sigmoid
on `|(0,0,δ)| / width`, the clipped impedance, the branch-selected effective
stiffness/damping, and `a_ref = -(D_f·v + K_f·imp·position)`. -/
def imp_aref (params : RelaxedRigidContactsParams) (penetration : ℚ)
    (velocity : Fin 3 → ℚ) : ImpOut :=
  let position : Fin 3 → ℚ := ![0, 0, penetration]
  let imp_x : Fin 3 → ℚ := fun k => |position k| / params.width
  let imp_a : Fin 3 → ℚ := fun k =>
    (1 / qpow params.midpoint (params.power - 1)) * qpow (imp_x k) params.power
  let imp_b : Fin 3 → ℚ := fun k =>
    1 - (1 / qpow (1 - params.midpoint) (params.power - 1))
      * qpow (1 - imp_x k) params.power
  let imp_y : Fin 3 → ℚ := fun k =>
    if imp_x k < params.midpoint then imp_a k else imp_b k
  let imp_clip : Fin 3 → ℚ := fun k =>
    min (max (params.d_min + imp_y k * (params.d_max - params.d_min))
      params.d_min) params.d_max
  let imp : Fin 3 → ℚ := fun k =>
    if 1 < imp_x k then params.d_max else imp_clip k
  let K_f : ℚ :=
    if params.stiffness < 0 then -params.stiffness / params.d_max ^ 2
    else 1 / (params.d_max * params.time_constant * params.damping_coefficient) ^ 2
  let D_f : ℚ :=
    if params.damping < 0 then -params.damping / params.d_max
    else 2 / (params.d_max * params.time_constant)
  { imp := imp
    a_ref := fun k => -(D_f * velocity k + K_f * imp k * position k)
    K_f := K_f
    D_f := D_f }

/-- Output of `compute_row` (source lines 588-608): per-point reference
acceleration, diagonal regularizer entries, stiffness and damping, all
multiplied by the activity indicator `(penetration < 0)`. -/
structure RowOut where
  a_ref : Fin 3 → ℚ
  R : Fin 3 → ℚ
  K : ℚ
  D : ℚ

/-- `compute_row` (source lines 588-608): the regularizer row
`R = (2 μ² (1 - ξ) / (ξ + 1e-12)) * (1 + μ²) @ inv(M_L[:3,:3])` — a
row-vector times matrix product — followed by masking all four outputs with
the indicator of `penetration < 0`. -/
def compute_row (params : RelaxedRigidContactsParams)
    (M_L3 : Matrix (Fin 3) (Fin 3) ℚ) (penetration : ℚ)
    (velocity : Fin 3 → ℚ) : RowOut :=
  let out := imp_aref params penetration velocity
  let Rraw : Fin 3 → ℚ := fun c =>
    ∑ k : Fin 3,
      (2 * params.mu ^ 2 * (1 - out.imp k) / (out.imp k + 1 / 10 ^ 12)
        * (1 + params.mu ^ 2)) * inv3 M_L3 k c
  let m : ℚ := if penetration < 0 then 1 else 0
  { a_ref := fun k => out.a_ref k * m
    R := fun k => Rraw k * m
    K := out.K_f * m
    D := out.D_f * m }

/-- Kinematic and dynamic inputs consumed by `compute_contact_forces` after
the library queries (positions/velocities of the enabled collidable points,
terrain, Jacobians and their derivatives, generalized velocity and free
acceleration, link spatial inertias and the owning-link map).  `M_pinv` is
the linear operator applied by `jnp.linalg.lstsq(M, ·)` — the minimum-norm
least-squares solve against the mass matrix acts on its right-hand side as
multiplication by the pseudo-inverse of `M`. -/
structure ContactInputs (nc nl dof : ℕ) where
  terrain_height : ℚ → ℚ → ℚ
  terrain_normal : ℚ → ℚ → Fin 3 → ℚ
  position : Fin nc → Fin 3 → ℚ
  velocity : Fin nc → Fin 3 → ℚ
  J : Fin nc → Matrix (Fin 3) (Fin dof) ℚ
  J_dot : Fin nc → Matrix (Fin 3) (Fin dof) ℚ
  W_p_C : Fin nc → Fin 3 → ℚ
  nu : Fin dof → ℚ
  nu_free : Fin dof → ℚ
  M_pinv : Matrix (Fin dof) (Fin dof) ℚ
  M_L : Fin nl → Matrix (Fin 6) (Fin 6) ℚ
  body : Fin nc → Fin nl

/-- `detect_contact` (source lines 322-328): signed penetration
`δ = (0, 0, z - height(x, y)) · n̂(x, y)` of an enabled point. -/
def detect_contact {nc nl dof : ℕ} (inp : ContactInputs nc nl dof)
    (i : Fin nc) : ℚ :=
  ∑ k : Fin 3,
    (![0, 0, inp.position i 2
        - inp.terrain_height (inp.position i 0) (inp.position i 1)] : Fin 3 → ℚ) k
      * inp.terrain_normal (inp.position i 0) (inp.position i 1) k

/-- The upper-left 3×3 (translational) block of a 6×6 spatial inertia. -/
def block3 (M : Matrix (Fin 6) (Fin 6) ℚ) : Matrix (Fin 3) (Fin 3) ℚ :=
  fun a b => M (Fin.castLE (by omega) a) (Fin.castLE (by omega) b)

/-- Output of `_regularizers` (source lines 610-623): concatenated reference
acceleration, the diagonal regularization matrix `jnp.diag(R)`, and the
per-point stiffness and damping vectors. -/
structure RegOut (nc : ℕ) where
  a_ref : Fin nc × Fin 3 → ℚ
  R : Matrix (Fin nc × Fin 3) (Fin nc × Fin 3) ℚ
  K : Fin nc → ℚ
  D : Fin nc → ℚ

/-- `_regularizers` (source lines 510-623): `compute_row` vmapped over the
enabled points (each looking up its owning link's translational inertia
block) and concatenated; the flattened optimizer index is modelled as the
pair (point, coordinate), so concatenation/flattening is index pairing. -/
def regularizers {nc nl dof : ℕ} (inp : ContactInputs nc nl dof)
    (params : RelaxedRigidContactsParams) : RegOut nc :=
  let row : Fin nc → RowOut := fun i =>
    compute_row params (block3 (inp.M_L (inp.body i))) (detect_contact inp i)
      (inp.velocity i)
  { a_ref := fun p => (row p.1).a_ref p.2
    R := fun p q => if p = q then (row p.1).R p.2 else 0
    K := fun i => (row i).K
    D := fun i => (row i).D }

/-- Initialization of the optimized forces with a linear Hunt/Crossley model
(source lines 470-474): `K[:,None] * zeros_like(position).at[:,2].set(δ)
+ D[:,None] * velocity`, flattened. -/
def init_params {nc nl dof : ℕ} (inp : ContactInputs nc nl dof)
    (params : RelaxedRigidContactsParams) : Fin nc × Fin 3 → ℚ :=
  fun p =>
    (regularizers inp params).K p.1
        * (if p.2 = (2 : Fin 3) then detect_contact inp p.1 else 0)
      + (regularizers inp params).D p.1 * inp.velocity p.1 p.2

/-- Rational inner product of two vectors over a finite index type. -/
def inner_q {ι : Type} [Fintype ι] (u v : ι → ℚ) : ℚ := ∑ k, u k * v k

/-- Squared Euclidean norm; `optax.tree_utils.tree_l2_norm grad` is its square
root. -/
def l2_sq {ι : Type} [Fintype ι] (g : ι → ℚ) : ℚ := ∑ k, g k ^ 2

/-- The comparison `‖g‖₂ ≥ tol` of the continuation predicate, expressed
without square roots: over the reals, `√(Σ g²) ≥ tol` holds iff `tol ≤ 0` or
`tol² ≤ Σ g²` (see `err_ge_iff_sqrt` below). -/
def err_ge {ι : Type} [Fintype ι] (g : ι → ℚ) (tol : ℚ) : Bool :=
  if tol ≤ 0 then true else decide (tol ^ 2 ≤ l2_sq g)

/-- The optimizer state threaded through the while-loop, as read by
`continuing_criterion` via `optax.tree_utils.tree_get`: the iteration count,
the gradient stored by the line search at the current iterate, and the
L-BFGS memory of past `(s, y)` pairs (newest first). -/
structure OptState (ι : Type) where
  count : ℕ
  grad : ι → ℚ
  mem : List ((ι → ℚ) × (ι → ℚ))

/-- `opt.init(params)` (optax): zero iteration count, zero stored gradient,
empty curvature memory. -/
def OptState.init (ι : Type) : OptState ι := ⟨0, fun _ => 0, []⟩

/-- First loop of the L-BFGS two-loop recursion, newest pair first:
`q ← q - α y` with `α = ⟨s, q⟩ / ⟨s, y⟩`, collecting each `(s, y, α)`. -/
def loop1 {ι : Type} [Fintype ι] :
    List ((ι → ℚ) × (ι → ℚ)) → (ι → ℚ) →
      ((ι → ℚ) × List ((ι → ℚ) × (ι → ℚ) × ℚ))
  | [], q => (q, [])
  | (s, y) :: rest, q =>
    let α := inner_q s q / inner_q s y
    let res := loop1 rest (fun k => q k - α * y k)
    (res.1, (s, y, α) :: res.2)

/-- Second loop of the two-loop recursion, oldest pair first:
`r ← r + (α - β) s` with `β = ⟨y, r⟩ / ⟨s, y⟩`. -/
def loop2 {ι : Type} [Fintype ι] :
    List ((ι → ℚ) × (ι → ℚ) × ℚ) → (ι → ℚ) → (ι → ℚ)
  | [], r => r
  | (s, y, α) :: rest, r =>
    let r' := loop2 rest r
    let β := inner_q y r' / inner_q s y
    fun k => r' k + (α - β) * s k

/-- The L-BFGS preconditioned direction `H·g`: two-loop recursion with the
usual initial scaling `γ = ⟨s, y⟩ / ⟨y, y⟩` from the newest pair. -/
def lbfgs_direction {ι : Type} [Fintype ι]
    (mem : List ((ι → ℚ) × (ι → ℚ))) (g : ι → ℚ) : ι → ℚ :=
  let res := loop1 mem g
  let γ : ℚ := match mem with
    | [] => 1
    | (s, y) :: _ => inner_q s y / inner_q y y
  loop2 res.2 (fun k => γ * res.1 k)

/-- The objective of the inner optimization (source line 403):
`f(x) = Σ (A x + b)²`. -/
def objective {ι : Type} [Fintype ι] (A : Matrix ι ι ℚ) (b x : ι → ℚ) : ℚ :=
  ∑ j, (A.mulVec x + b) j ^ 2

/-- Gradient of `objective`, `∇f = 2 Aᵀ (A x + b)`, as computed by the
autodiff of `optax.value_and_grad_from_state`. -/
def grad_objective {ι : Type} [Fintype ι] (A : Matrix ι ι ℚ) (b x : ι → ℚ) :
    ι → ℚ :=
  fun k => 2 * (A.transpose.mulVec (A.mulVec x + b)) k

/-- One iteration of the while-loop body `step` (source lines 424-448) with
`opt = optax.lbfgs(...)`: evaluate the gradient, compute the two-loop
direction from the memory, scale it by the step size produced by the line
search (abstracted as the caller-supplied scalar function `ls` of the current
iterate and direction), apply the update, and refresh count, stored gradient
and curvature memory (`s = Δx`, `y = Δ∇f`, bounded by `memory_size`). -/
def lbfgs_step {ι : Type} [Fintype ι] (A : Matrix ι ι ℚ) (b : ι → ℚ)
    (memory_size : ℕ) (ls : (ι → ℚ) → (ι → ℚ) → ℚ)
    (carry : (ι → ℚ) × OptState ι) : (ι → ℚ) × OptState ι :=
  let x := carry.1
  let st := carry.2
  let g := grad_objective A b x
  let d : ι → ℚ := fun k => -(lbfgs_direction st.mem g k)
  let η := ls x d
  let u : ι → ℚ := fun k => η * d k
  let x' : ι → ℚ := fun k => x k + u k
  let g' := grad_objective A b x'
  (x', ⟨st.count + 1, g',
    List.take memory_size ((u, fun k => g' k - g k) :: st.mem)⟩)

/-- `continuing_criterion` (source lines 450-458), verbatim:
`(iter_num == 0) | ((iter_num < maxiter) & (err >= tol))`. -/
def continuing_criterion {ι : Type} [Fintype ι] (maxiter : ℕ) (tol : ℚ)
    (st : OptState ι) : Bool :=
  (st.count == 0) || (decide (st.count < maxiter) && err_ge st.grad tol)

/-- The continuation predicate as written in the specification:
`predicate(state) = (k == 0) OR (k < maxiter AND ‖∇f‖₂ ≥ tol)`. -/
def spec_predicate {ι : Type} [Fintype ι] (maxiter : ℕ) (tol : ℚ)
    (st : OptState ι) : Bool :=
  (st.count == 0) || (decide (st.count < maxiter) && err_ge st.grad tol)

/-- Fuel-indexed unfolding of `jax.lax.while_loop cond body`: runs `body`
while `cond` holds, for at most `fuel` steps.  `run_optimization` supplies
enough fuel for the predicate to be false at the returned carry, so this is
an exact model of the (terminating) while-loop. -/
def runLoop {α : Type} (cond : α → Bool) (body : α → α) : ℕ → α → α
  | 0, c => c
  | fuel + 1, c => if cond c then runLoop cond body fuel (body c) else c

/-- `run_optimization` (source lines 409-464): initialize the carry with the
warm-start parameters and the optimizer init state, then run the while-loop
with `continuing_criterion` and `step`. -/
def run_optimization {ι : Type} [Fintype ι] (A : Matrix ι ι ℚ)
    (b x0 : ι → ℚ) (ls : (ι → ℚ) → (ι → ℚ) → ℚ)
    (memory_size maxiter : ℕ) (tol : ℚ) : (ι → ℚ) × OptState ι :=
  runLoop (fun c => continuing_criterion maxiter tol c.2)
    (lbfgs_step A b memory_size ls) (maxiter + 1) (x0, OptState.init ι)

/-- Modelled from the spec: the representation-conversion primitive
`ModelDataWithVelocityRepresentation.other_representation_to_inertial`
(in `jaxsim/api/common.py`, outside the given sources) applied with
`VelRepr.Mixed` and `is_force=True`.  Per §4.7 of the spec, a 6-D wrench in
a frame with world-aligned axes and origin at the contact point `p` maps to
the world wrench with the same linear part and a moment increased by
`p × force_linear`. -/
def other_representation_to_inertial (p : Fin 3 → ℚ) (f : Fin 6 → ℚ) :
    Fin 6 → ℚ :=
  ![f 0, f 1, f 2,
    p 1 * f 2 - p 2 * f 1 + f 3,
    p 2 * f 0 - p 0 * f 2 + f 4,
    p 0 * f 1 - p 1 * f 0 + f 5]

/-- The per-point masked translational Jacobian stack `Jl_WC`
(source lines 365-372): rows of points with `δ ≥ 0` are zeroed by the
multiplication with the indicator `(height < 0)`. -/
def Jl_WC {nc nl dof : ℕ} (inp : ContactInputs nc nl dof) :
    Matrix (Fin nc × Fin 3) (Fin dof) ℚ :=
  fun p d =>
    inp.J p.1 p.2 d * (if detect_contact inp p.1 < 0 then 1 else 0)

/-- The masked stack of Jacobian derivatives `J̇_WC` (source lines 374-381). -/
def Jd_WC {nc nl dof : ℕ} (inp : ContactInputs nc nl dof) :
    Matrix (Fin nc × Fin 3) (Fin dof) ℚ :=
  fun p d =>
    inp.J_dot p.1 p.2 d * (if detect_contact inp p.1 < 0 then 1 else 0)

/-- The Delassus matrix `G = Jl_WC @ lstsq(M, Jl_WC.T)` (source line 394),
with the minimum-norm least-squares solve acting as `M_pinv @ ·`. -/
def delassus {nc nl dof : ℕ} (inp : ContactInputs nc nl dof) :
    Matrix (Fin nc × Fin 3) (Fin nc × Fin 3) ℚ :=
  Jl_WC inp * (inp.M_pinv * (Jl_WC inp).transpose)

/-- The matrix `A = G + R` of the optimization (source line 398). -/
def A_mat {nc nl dof : ℕ} (inp : ContactInputs nc nl dof)
    (params : RelaxedRigidContactsParams) :
    Matrix (Fin nc × Fin 3) (Fin nc × Fin 3) ℚ :=
  delassus inp + (regularizers inp params).R

/-- The vector `b = (Jl_WC ν̇_free + J̇_WC ν) - a_ref`
(source lines 395-399). -/
def b_vec {nc nl dof : ℕ} (inp : ContactInputs nc nl dof)
    (params : RelaxedRigidContactsParams) : Fin nc × Fin 3 → ℚ :=
  fun p =>
    ((Jl_WC inp).mulVec inp.nu_free p + (Jd_WC inp).mulVec inp.nu p)
      - (regularizers inp params).a_ref p

/-- `compute_contact_forces` (source lines 267-508) from the kinematic
snapshot onward: assemble `A` and `b`, warm-start with the Hunt/Crossley
prediction, run the L-BFGS while-loop, reshape the solution into per-point
3-D forces and lift each to a world wrench.  Returns the wrench matrix and
the (empty) diagnostics dictionary. -/
def compute_contact_forces {nc nl dof : ℕ} (inp : ContactInputs nc nl dof)
    (params : RelaxedRigidContactsParams) (tol : ℚ)
    (maxiter memory_size : ℕ)
    (ls : (Fin nc × Fin 3 → ℚ) → (Fin nc × Fin 3 → ℚ) → ℚ) :
    (Fin nc → Fin 6 → ℚ) × List (String × PyValue) :=
  let sol :=
    (run_optimization (A_mat inp params) (b_vec inp params)
      (init_params inp params) ls memory_size maxiter tol).1
  (fun i =>
    other_representation_to_inertial (inp.W_p_C i)
      ![sol (i, 0), sol (i, 1), sol (i, 2), 0, 0, 0],
   [])

/-- A one-point, one-link, one-dof concrete input with the point 1 above flat
terrain (penetration δ = 1, inactive) and deliberately nonzero velocity,
Jacobians, inertia and transform. -/
def inp0 : ContactInputs 1 1 1 where
  terrain_height := fun _ _ => 0
  terrain_normal := fun _ _ => ![0, 0, 1]
  position := fun _ => ![0, 0, 1]
  velocity := fun _ => ![1, 2, 3]
  J := fun _ => fun _ _ => 5
  J_dot := fun _ => fun _ _ => 7
  W_p_C := fun _ => ![1, 1, 1]
  nu := fun _ => 7
  nu_free := fun _ => 11
  M_pinv := fun _ _ => 13
  M_L := fun _ => fun _ _ => 1
  body := fun _ => 0

/-- A symmetric positive-definite but non-diagonal 3×3 inertia block. -/
def M0 : Matrix (Fin 3) (Fin 3) ℚ := Matrix.of ![![2, 1, 0], ![1, 2, 0], ![0, 0, 1]]

/-- A diagonal 3×3 inertia block with nonzero diagonal entries. -/
def Mdiag : Matrix (Fin 3) (Fin 3) ℚ :=
  Matrix.of ![![2, 0, 0], ![0, 3, 0], ![0, 0, 4]]

/-- Parameters with explicitly negative configured stiffness and damping. -/
def negParams : RelaxedRigidContactsParams :=
  RelaxedRigidContactsParams.build none none none none none none none
    (some (-1)) (some (-1)) none

/-- Parameters differing from the defaults only in `mu`. -/
def paramsMuOne : RelaxedRigidContactsParams :=
  RelaxedRigidContactsParams.build none none none none none none none none
    none (some 1)

/-- A (degenerate) hash function under which all parameter objects collide. -/
def hashZero : RelaxedRigidContactsParams → ℤ := fun _ => 0

/-- Sanity check that `err_ge` is the square-root-free form of the source's
`‖∇f‖₂ ≥ tol`: over the reals the two comparisons agree. -/
lemma err_ge_iff_sqrt {ι : Type} [Fintype ι] (g : ι → ℚ) (tol : ℚ) :
    err_ge g tol = true ↔ (tol : ℝ) ≤ Real.sqrt (∑ k, (g k : ℝ) ^ 2) := by
  have hcast : ((l2_sq g : ℚ) : ℝ) = ∑ k, (g k : ℝ) ^ 2 := by
    simp [l2_sq]
  have hnn : (0 : ℝ) ≤ ∑ k, (g k : ℝ) ^ 2 :=
    Finset.sum_nonneg fun k _ => sq_nonneg _
  by_cases h : tol ≤ 0
  · simp only [err_ge, if_pos h, true_iff]
    exact le_trans (by exact_mod_cast h) (Real.sqrt_nonneg _)
  · have htol : (0 : ℝ) ≤ (tol : ℚ) := by
      push_neg at h; exact_mod_cast le_of_lt h
    simp only [err_ge, if_neg h, decide_eq_true_eq]
    rw [show ((tol : ℚ) : ℝ) ≤ Real.sqrt (∑ k, (g k : ℝ) ^ 2) ↔
        ((tol : ℚ) : ℝ) ^ 2 ≤ ∑ k, (g k : ℝ) ^ 2 from Real.le_sqrt htol hnn]
    rw [← hcast]
    exact_mod_cast Iff.rfl

/-- A vector vanishes on all coordinates selected by `S`. -/
def Vanishes {ι : Type} (S : ι → Prop) (v : ι → ℚ) : Prop :=
  ∀ k, S k → v k = 0

/-- The first two-loop pass preserves vanishing: if the input vector and all
memory pairs vanish on `S`, so do the output vector and the collected pairs. -/
lemma vanishes_loop1 {ι : Type} [Fintype ι] (S : ι → Prop) :
    ∀ (mem : List ((ι → ℚ) × (ι → ℚ))) (q : ι → ℚ), Vanishes S q →
      (∀ sy ∈ mem, Vanishes S sy.1 ∧ Vanishes S sy.2) →
      Vanishes S (loop1 mem q).1 ∧
        ∀ t ∈ (loop1 mem q).2, Vanishes S t.1 ∧ Vanishes S t.2.1
  | [], q, hq, _ => ⟨hq, by simp [loop1]⟩
  | (s, y) :: rest, q, hq, hmem => by
    have hsy := hmem (s, y) (List.mem_cons_self _ _)
    have hq' :
        Vanishes S (fun k => q k - inner_q s q / inner_q s y * y k) := by
      intro k hk
      have hyk : y k = 0 := hsy.2 k hk
      simp [hq k hk, hyk]
    have ih := vanishes_loop1 S rest _ hq'
      (fun sy h => hmem sy (List.mem_cons_of_mem _ h))
    constructor
    · simpa [loop1] using ih.1
    · intro t ht
      simp only [loop1, List.mem_cons] at ht
      rcases ht with rfl | ht
      · exact ⟨hsy.1, hsy.2⟩
      · exact ih.2 t ht

/-- The second two-loop pass preserves vanishing. -/
lemma vanishes_loop2 {ι : Type} [Fintype ι] (S : ι → Prop) :
    ∀ (acc : List ((ι → ℚ) × (ι → ℚ) × ℚ)) (r : ι → ℚ), Vanishes S r →
      (∀ t ∈ acc, Vanishes S t.1) → Vanishes S (loop2 acc r)
  | [], _, hr, _ => hr
  | (s, y, α) :: rest, r, hr, hacc => by
    have ih := vanishes_loop2 S rest r hr
      (fun t h => hacc t (List.mem_cons_of_mem _ h))
    intro k hk
    have hsk : s k = 0 := hacc (s, y, α) (List.mem_cons_self _ _) k hk
    simp [loop2, ih k hk, hsk]

/-- The L-BFGS direction vanishes wherever the gradient and every memory
vector vanish: the two-loop recursion only forms linear combinations of
those vectors. -/
lemma vanishes_direction {ι : Type} [Fintype ι] (S : ι → Prop)
    (mem : List ((ι → ℚ) × (ι → ℚ))) (g : ι → ℚ) (hg : Vanishes S g)
    (hmem : ∀ sy ∈ mem, Vanishes S sy.1 ∧ Vanishes S sy.2) :
    Vanishes S (lbfgs_direction mem g) := by
  have h1 := vanishes_loop1 S mem g hg hmem
  intro k hk
  unfold lbfgs_direction
  exact vanishes_loop2 S _ _ (fun k' hk' => by simp [h1.1 k' hk'])
    (fun t ht => (h1.2 t ht).1) k hk

/-- If every entry of column `k` of `A` is zero for each `k` selected by `S`,
then the gradient `2 Aᵀ (A x + b)` vanishes on `S` for every `x`. -/
lemma vanishes_grad {ι : Type} [Fintype ι] (S : ι → Prop) (A : Matrix ι ι ℚ)
    (b : ι → ℚ) (hA : ∀ k, S k → ∀ j, A j k = 0) (x : ι → ℚ) :
    Vanishes S (grad_objective A b x) := by
  intro k hk
  simp [grad_objective, Matrix.mulVec, Matrix.dotProduct,
    Matrix.transpose_apply, hA k hk]

/-- The invariant carried through the while-loop for the inactive-point
argument: the iterate and all curvature pairs vanish on `S`. -/
def CarryInv {ι : Type} (S : ι → Prop) (c : (ι → ℚ) × OptState ι) : Prop :=
  Vanishes S c.1 ∧ ∀ sy ∈ c.2.mem, Vanishes S sy.1 ∧ Vanishes S sy.2

/-- One L-BFGS step preserves `CarryInv` when the selected columns of `A`
are zero. -/
lemma lbfgs_step_inv {ι : Type} [Fintype ι] (S : ι → Prop)
    (A : Matrix ι ι ℚ) (b : ι → ℚ) (m : ℕ)
    (ls : (ι → ℚ) → (ι → ℚ) → ℚ) (hA : ∀ k, S k → ∀ j, A j k = 0)
    (c : (ι → ℚ) × OptState ι) (hc : CarryInv S c) :
    CarryInv S (lbfgs_step A b m ls c) := by
  obtain ⟨hx, hmem⟩ := hc
  have hg : Vanishes S (grad_objective A b c.1) := vanishes_grad S A b hA c.1
  have hdir := vanishes_direction S c.2.mem _ hg hmem
  constructor
  · intro k hk
    show c.1 k + _ * -(lbfgs_direction c.2.mem (grad_objective A b c.1) k) = 0
    simp [hx k hk, hdir k hk]
  · intro sy hsy
    have hsy' := List.take_subset _ _ hsy
    rcases List.mem_cons.mp hsy' with rfl | h
    · constructor
      · intro k hk
        show _ * -(lbfgs_direction c.2.mem (grad_objective A b c.1) k) = 0
        simp [hdir k hk]
      · intro k hk
        have h1 := vanishes_grad S A b hA
          (fun k' => c.1 k' + ls c.1
            (fun k'' => -(lbfgs_direction c.2.mem (grad_objective A b c.1) k''))
            * -(lbfgs_direction c.2.mem (grad_objective A b c.1) k')) k hk
        have h2 := hg k hk
        show grad_objective A b _ k - grad_objective A b c.1 k = 0
        rw [h2, sub_zero]
        exact h1
    · exact hmem _ h

/-- A predicate preserved by the loop body is preserved by `runLoop`. -/
lemma runLoop_inv {α : Type} (P : α → Prop) (cond : α → Bool) (body : α → α)
    (hbody : ∀ c, P c → P (body c)) :
    ∀ (fuel : ℕ) (c : α), P c → P (runLoop cond body fuel c)
  | 0, _, hc => hc
  | fuel + 1, c, hc => by
    by_cases h : cond c
    · simpa [runLoop, h] using
        runLoop_inv P cond body hbody fuel (body c) (hbody c hc)
    · simpa [runLoop, h] using hc

/-- The returned iterate of `run_optimization` vanishes on `S` whenever the
warm start does and the `S`-columns of `A` are zero. -/
lemma run_optimization_vanishes {ι : Type} [Fintype ι] (S : ι → Prop)
    (A : Matrix ι ι ℚ) (b x0 : ι → ℚ) (ls : (ι → ℚ) → (ι → ℚ) → ℚ)
    (m maxiter : ℕ) (tol : ℚ) (hA : ∀ k, S k → ∀ j, A j k = 0)
    (hx0 : Vanishes S x0) :
    Vanishes S (run_optimization A b x0 ls m maxiter tol).1 := by
  have hinit : CarryInv S (x0, OptState.init ι) := by
    refine ⟨hx0, ?_⟩
    intro sy hsy
    simp [OptState.init] at hsy
  exact (runLoop_inv (CarryInv S) _ _
    (fun c hc => lbfgs_step_inv S A b m ls hA c hc)
    (maxiter + 1) (x0, OptState.init ι) hinit).1

/-- All four outputs of `compute_row` are zero when the point is inactive
(`0 ≤ penetration`): the activity indicator multiplies each of them. -/
lemma compute_row_inactive (params : RelaxedRigidContactsParams)
    (M3 : Matrix (Fin 3) (Fin 3) ℚ) (pen : ℚ) (v : Fin 3 → ℚ)
    (h : 0 ≤ pen) :
    (compute_row params M3 pen v).a_ref = (fun _ => 0) ∧
      (compute_row params M3 pen v).R = (fun _ => 0) ∧
      (compute_row params M3 pen v).K = 0 ∧
      (compute_row params M3 pen v).D = 0 := by
  have hm : (if pen < 0 then (1 : ℚ) else 0) = 0 := if_neg (not_lt.mpr h)
  refine ⟨funext fun k => ?_, funext fun k => ?_, ?_, ?_⟩ <;>
    simp [compute_row, hm]

/-- Each L-BFGS step increments the iteration count by exactly one. -/
lemma lbfgs_step_count {ι : Type} [Fintype ι] (A : Matrix ι ι ℚ)
    (b : ι → ℚ) (m : ℕ) (ls : (ι → ℚ) → (ι → ℚ) → ℚ)
    (c : (ι → ℚ) × OptState ι) :
    (lbfgs_step A b m ls c).2.count = c.2.count + 1 := rfl

/-- Once at least one iteration has run, the loop exits with the predicate
false and a final count bounded by `max maxiter count`, provided the fuel
covers the remaining iterations. -/
lemma runLoop_term {ι : Type} [Fintype ι] (A : Matrix ι ι ℚ) (b : ι → ℚ)
    (m : ℕ) (ls : (ι → ℚ) → (ι → ℚ) → ℚ) (maxiter : ℕ) (tol : ℚ) :
    ∀ (fuel : ℕ) (c : (ι → ℚ) × OptState ι), 1 ≤ c.2.count →
      maxiter ≤ c.2.count + fuel →
      continuing_criterion maxiter tol
          (runLoop (fun c => continuing_criterion maxiter tol c.2)
            (lbfgs_step A b m ls) fuel c).2 = false ∧
        c.2.count ≤ (runLoop (fun c => continuing_criterion maxiter tol c.2)
          (lbfgs_step A b m ls) fuel c).2.count ∧
        (runLoop (fun c => continuing_criterion maxiter tol c.2)
          (lbfgs_step A b m ls) fuel c).2.count ≤ max maxiter c.2.count
  | 0, c, h1, hfuel => by
    refine ⟨?_, le_refl _, le_max_right _ _⟩
    have hne : (c.2.count == 0) = false := by
      simp only [beq_eq_false_iff_ne, ne_eq]; omega
    have hlt : decide (c.2.count < maxiter) = false := by
      simp only [decide_eq_false_iff_not, not_lt]; omega
    simp [runLoop, continuing_criterion, hne, hlt]
  | fuel + 1, c, h1, hfuel => by
    by_cases h : continuing_criterion maxiter tol c.2
    · have hlt : c.2.count < maxiter := by
        simp only [continuing_criterion, Bool.or_eq_true, Bool.and_eq_true,
          beq_iff_eq, decide_eq_true_eq] at h
        rcases h with h | h
        · omega
        · exact h.1
      have ih := runLoop_term A b m ls maxiter tol fuel
        (lbfgs_step A b m ls c) (by rw [lbfgs_step_count]; omega)
        (by rw [lbfgs_step_count]; omega)
      rw [show runLoop (fun c => continuing_criterion maxiter tol c.2)
          (lbfgs_step A b m ls) (fuel + 1) c
          = runLoop (fun c => continuing_criterion maxiter tol c.2)
            (lbfgs_step A b m ls) fuel (lbfgs_step A b m ls c) from by
        simp [runLoop, h]]
      refine ⟨ih.1, ?_, ?_⟩
      · have := ih.2.1
        rw [lbfgs_step_count] at this
        omega
      · have := ih.2.2
        rw [lbfgs_step_count] at this
        have hmax : max maxiter (c.2.count + 1) = maxiter := by omega
        omega
    · rw [show runLoop (fun c => continuing_criterion maxiter tol c.2)
          (lbfgs_step A b m ls) (fuel + 1) c = c from by simp [runLoop, h]]
      exact ⟨Bool.eq_false_iff.mpr h, le_refl _, le_max_right _ _⟩

/-- On a diagonal matrix with nonzero diagonal, the explicit 3×3 inverse is
the diagonal matrix of reciprocals. -/
lemma inv3_diagonal (M3 : Matrix (Fin 3) (Fin 3) ℚ)
    (hdiag : ∀ a b : Fin 3, a ≠ b → M3 a b = 0)
    (hnz : ∀ c : Fin 3, M3 c c ≠ 0) :
    ∀ k c : Fin 3, inv3 M3 k c = if k = c then (M3 c c)⁻¹ else 0 := by
  have h01 := hdiag 0 1 (by decide)
  have h02 := hdiag 0 2 (by decide)
  have h10 := hdiag 1 0 (by decide)
  have h12 := hdiag 1 2 (by decide)
  have h20 := hdiag 2 0 (by decide)
  have h21 := hdiag 2 1 (by decide)
  have hn0 := hnz 0
  have hn1 := hnz 1
  have hn2 := hnz 2
  have hdet : det3 M3 = M3 0 0 * (M3 1 1 * M3 2 2) := by
    unfold det3
    rw [h01, h02, h12, h21]
    ring
  intro k c
  fin_cases k <;> fin_cases c
  · show inv3 M3 0 0 = if (0 : Fin 3) = 0 then (M3 0 0)⁻¹ else 0
    rw [show inv3 M3 0 0
        = (1 / det3 M3) * (M3 1 1 * M3 2 2 - M3 1 2 * M3 2 1) from rfl,
      hdet, h12, h21, if_pos rfl]
    field_simp
    ring
  · show inv3 M3 0 1 = if (0 : Fin 3) = 1 then (M3 1 1)⁻¹ else 0
    rw [show inv3 M3 0 1
        = (1 / det3 M3) * (M3 0 2 * M3 2 1 - M3 0 1 * M3 2 2) from rfl,
      h02, h01, if_neg (by decide)]
    ring
  · show inv3 M3 0 2 = if (0 : Fin 3) = 2 then (M3 2 2)⁻¹ else 0
    rw [show inv3 M3 0 2
        = (1 / det3 M3) * (M3 0 1 * M3 1 2 - M3 0 2 * M3 1 1) from rfl,
      h01, h02, if_neg (by decide)]
    ring
  · show inv3 M3 1 0 = if (1 : Fin 3) = 0 then (M3 0 0)⁻¹ else 0
    rw [show inv3 M3 1 0
        = (1 / det3 M3) * (M3 1 2 * M3 2 0 - M3 1 0 * M3 2 2) from rfl,
      h12, h10, if_neg (by decide)]
    ring
  · show inv3 M3 1 1 = if (1 : Fin 3) = 1 then (M3 1 1)⁻¹ else 0
    rw [show inv3 M3 1 1
        = (1 / det3 M3) * (M3 0 0 * M3 2 2 - M3 0 2 * M3 2 0) from rfl,
      hdet, h02, h20, if_pos rfl]
    field_simp
    ring
  · show inv3 M3 1 2 = if (1 : Fin 3) = 2 then (M3 2 2)⁻¹ else 0
    rw [show inv3 M3 1 2
        = (1 / det3 M3) * (M3 0 2 * M3 1 0 - M3 0 0 * M3 1 2) from rfl,
      h02, h12, if_neg (by decide)]
    ring
  · show inv3 M3 2 0 = if (2 : Fin 3) = 0 then (M3 0 0)⁻¹ else 0
    rw [show inv3 M3 2 0
        = (1 / det3 M3) * (M3 1 0 * M3 2 1 - M3 1 1 * M3 2 0) from rfl,
      h10, h20, if_neg (by decide)]
    ring
  · show inv3 M3 2 1 = if (2 : Fin 3) = 1 then (M3 1 1)⁻¹ else 0
    rw [show inv3 M3 2 1
        = (1 / det3 M3) * (M3 0 1 * M3 2 0 - M3 0 0 * M3 2 1) from rfl,
      h01, h21, if_neg (by decide)]
    ring
  · show inv3 M3 2 2 = if (2 : Fin 3) = 2 then (M3 2 2)⁻¹ else 0
    rw [show inv3 M3 2 2
        = (1 / det3 M3) * (M3 0 0 * M3 1 1 - M3 0 1 * M3 1 0) from rfl,
      hdet, h01, h10, if_pos rfl]
    field_simp
    ring

/-- Characterization of the Boolean `valid()` as the conjunction of the nine
range conditions it tests. -/
lemma valid_iff (p : RelaxedRigidContactsParams) :
    p.valid = true ↔
      (0 ≤ p.time_constant ∧ 0 < p.damping_coefficient ∧ 0 ≤ p.d_min ∧
        p.d_max ≤ 1 ∧ p.d_min ≤ p.d_max ∧ 0 ≤ p.width ∧ 0 ≤ p.midpoint ∧
        0 ≤ p.power ∧ 0 ≤ p.mu) := by
  simp [RelaxedRigidContactsParams.valid, and_assoc]

/-- C2: the claim asserts that the three per-point regularization scalars of
an active point equal the weights `(2 μ² (1 − ξ_c)/(ξ_c + 1e-12))·(1 + μ²)`
multiplied componentwise by the reciprocals of the diagonal entries of the
3×3 translational inertia block.  Counterexample: for the non-diagonal SPD
block `M0` the code's row-vector–matrix product with the full inverse gives
a different first component (v₀/3 instead of the claimed v₀/2). -/
theorem C2_counterexample :
    (compute_row defaultParams M0 (-1) (fun _ => 0)).R 0
      ≠ (2 * defaultParams.mu ^ 2
            * (1 - (imp_aref defaultParams (-1) (fun _ => 0)).imp 0)
            / ((imp_aref defaultParams (-1) (fun _ => 0)).imp 0 + 1 / 10 ^ 12)
            * (1 + defaultParams.mu ^ 2))
          * (1 / M0 0 0) := by
  norm_num [compute_row, imp_aref, defaultParams,
    RelaxedRigidContactsParams.build, qpow, inv3, det3, M0,
    Fin.sum_univ_three]

/-- C2 (amended): for every active point the regularization row is the
row-vector–matrix product of the weights with `inv(M_L[:3,:3])`; when the
block is diagonal with nonzero diagonal entries (for example the `m·I₃`
translational block of a spatial inertia) this reduces to the claimed
componentwise multiplication by the reciprocals of the diagonal entries. -/
theorem C2_regularizer_diagonal_block (params : RelaxedRigidContactsParams)
    (M3 : Matrix (Fin 3) (Fin 3) ℚ) (pen : ℚ) (v : Fin 3 → ℚ)
    (hpen : pen < 0) (hdiag : ∀ a b : Fin 3, a ≠ b → M3 a b = 0)
    (hnz : ∀ c : Fin 3, M3 c c ≠ 0) (c : Fin 3) :
    (compute_row params M3 pen v).R c
      = (2 * params.mu ^ 2 * (1 - (imp_aref params pen v).imp c)
          / ((imp_aref params pen v).imp c + 1 / 10 ^ 12)
          * (1 + params.mu ^ 2)) * (M3 c c)⁻¹ := by
  have hinv := inv3_diagonal M3 hdiag hnz
  show (∑ k : Fin 3,
      (2 * params.mu ^ 2 * (1 - (imp_aref params pen v).imp k)
        / ((imp_aref params pen v).imp k + 1 / 10 ^ 12)
        * (1 + params.mu ^ 2)) * inv3 M3 k c)
      * (if pen < 0 then (1 : ℚ) else 0)
      = _
  rw [if_pos hpen, mul_one]
  simp only [hinv, mul_ite, mul_zero]
  simp [Finset.sum_ite_eq']

/-- Witness for C2 (amended) at the diagonal block `Mdiag` with penetration
−1 and the default parameters: all three hypotheses hold and the conclusion
follows by the theorem. -/
theorem C2_witness :
    ((-1 : ℚ) < 0 ∧ (∀ a b : Fin 3, a ≠ b → Mdiag a b = 0) ∧
        ∀ c : Fin 3, Mdiag c c ≠ 0) ∧
      (compute_row defaultParams Mdiag (-1) (fun _ => 0)).R 0
        = (2 * defaultParams.mu ^ 2
            * (1 - (imp_aref defaultParams (-1) (fun _ => 0)).imp 0)
            / ((imp_aref defaultParams (-1) (fun _ => 0)).imp 0 + 1 / 10 ^ 12)
            * (1 + defaultParams.mu ^ 2)) * (Mdiag 0 0)⁻¹ := by
  have h1 : (-1 : ℚ) < 0 := by norm_num
  have h2 : ∀ a b : Fin 3, a ≠ b → Mdiag a b = 0 := by decide
  have h3 : ∀ c : Fin 3, Mdiag c c ≠ 0 := by decide
  exact ⟨⟨h1, h2, h3⟩,
    C2_regularizer_diagonal_block defaultParams Mdiag (-1) (fun _ => 0)
      h1 h2 h3 0⟩

/-- C3: the claim asserts that `RelaxedRigidContactsParams.build` raises a
configuration error for every field combination on which `valid()` is false.
Counterexample: `build(damping_coefficient=0)` returns normally (the embedded
`build` is a total function, matching the source, which has no raise path)
and stores the invalid value, with `valid()` false on the result. -/
theorem C3_counterexample :
    (RelaxedRigidContactsParams.build none (some 0) none none none none none
        none none none).valid = false ∧
      (RelaxedRigidContactsParams.build none (some 0) none none none none none
        none none none).damping_coefficient = 0 := by
  constructor
  · rw [Bool.eq_false_iff]
    intro hval
    have h := (valid_iff _).mp hval
    norm_num [RelaxedRigidContactsParams.build] at h
  · norm_num [RelaxedRigidContactsParams.build]

/-- C3 (amended): `build` performs no validation and never raises: for every
combination of the ten field values it returns normally with exactly those
values stored, whether or not `valid()` holds on the result. -/
theorem C3_build_stores_unvalidated
    (v1 v2 v3 v4 v5 v6 v7 v8 v9 v10 : ℚ) :
    RelaxedRigidContactsParams.build (some v1) (some v2) (some v3) (some v4)
        (some v5) (some v6) (some v7) (some v8) (some v9) (some v10)
      = ⟨v1, v2, v3, v4, v5, v6, v7, v8, v9, v10⟩ := rfl

/-- C4: the claim asserts `valid()` is true iff the §3 ranges hold, in
particular false for `width = 0`, `midpoint ≥ 1`, or `0 ≤ power < 1`.
Counterexample: the code accepts all three — `valid()` is true with
`width = 0`, with `midpoint = 2`, and with `power = 1/2` (defaults
elsewhere), while the claimed ranges fail. -/
theorem C4_counterexample :
    ((RelaxedRigidContactsParams.build none none none none (some 0) none none
        none none none).valid = true ∧
      ¬ specValidRanges (RelaxedRigidContactsParams.build none none none none
        (some 0) none none none none none)) ∧
    ((RelaxedRigidContactsParams.build none none none none none (some 2) none
        none none none).valid = true ∧
      ¬ specValidRanges (RelaxedRigidContactsParams.build none none none none
        none (some 2) none none none none)) ∧
    ((RelaxedRigidContactsParams.build none none none none none none
        (some (1 / 2)) none none none).valid = true ∧
      ¬ specValidRanges (RelaxedRigidContactsParams.build none none none none
        none none (some (1 / 2)) none none none)) := by
  refine ⟨⟨?_, ?_⟩, ⟨?_, ?_⟩, ⟨?_, ?_⟩⟩
  · rw [valid_iff]
    norm_num [RelaxedRigidContactsParams.build]
  · norm_num [specValidRanges, RelaxedRigidContactsParams.build]
  · rw [valid_iff]
    norm_num [RelaxedRigidContactsParams.build]
  · norm_num [specValidRanges, RelaxedRigidContactsParams.build]
  · rw [valid_iff]
    norm_num [RelaxedRigidContactsParams.build]
  · norm_num [specValidRanges, RelaxedRigidContactsParams.build]

/-- C4 (amended): `valid()` returns true iff `time_constant ≥ 0`,
`damping_coefficient > 0`, `d_min ≥ 0`, `d_max ≤ 1`, `d_min ≤ d_max`,
`width ≥ 0`, `midpoint ≥ 0`, `power ≥ 0` and `mu ≥ 0` — the literal checks
of the source, which do not enforce `width > 0`, `midpoint ∈ (0,1)` or
`power ≥ 1`. -/
theorem C4_valid_characterization (p : RelaxedRigidContactsParams) :
    p.valid = true ↔
      (0 ≤ p.time_constant ∧ 0 < p.damping_coefficient ∧ 0 ≤ p.d_min ∧
        p.d_max ≤ 1 ∧ p.d_min ≤ p.d_max ∧ 0 ≤ p.width ∧ 0 ≤ p.midpoint ∧
        0 ≤ p.power ∧ 0 ≤ p.mu) :=
  valid_iff p

/-- C6: the effective stiffness and damping of `imp_aref` follow the
configured signs: for non-negative configured values (in particular the
defaults 0, 0) they are `(1/(ξ_max Ω ζ)², 2/(ξ_max Ω))`; for negative
configured values they are `(-K_cfg/ξ_max², -D_cfg/ξ_max)`. -/
theorem C6_stiffness_damping_branches (params : RelaxedRigidContactsParams)
    (pen : ℚ) (v : Fin 3 → ℚ) :
    (0 ≤ params.stiffness ∧ 0 ≤ params.damping →
      (imp_aref params pen v).K_f
          = 1 / (params.d_max * params.time_constant
              * params.damping_coefficient) ^ 2 ∧
        (imp_aref params pen v).D_f
          = 2 / (params.d_max * params.time_constant)) ∧
    (params.stiffness < 0 ∧ params.damping < 0 →
      (imp_aref params pen v).K_f = -params.stiffness / params.d_max ^ 2 ∧
        (imp_aref params pen v).D_f = -params.damping / params.d_max) := by
  constructor
  · rintro ⟨hK, hD⟩
    constructor <;> simp [imp_aref, not_lt.mpr hK, not_lt.mpr hD]
  · rintro ⟨hK, hD⟩
    constructor <;> simp [imp_aref, hK, hD]

/-- Witness for C6 with both branches exercised: the default parameters
(stiffness = damping = 0) and `negParams` (stiffness = damping = −1). -/
theorem C6_witness :
    (0 ≤ defaultParams.stiffness ∧ 0 ≤ defaultParams.damping) ∧
    (imp_aref defaultParams 0 (fun _ => 0)).K_f
        = 1 / (defaultParams.d_max * defaultParams.time_constant
            * defaultParams.damping_coefficient) ^ 2 ∧
    (imp_aref defaultParams 0 (fun _ => 0)).D_f
        = 2 / (defaultParams.d_max * defaultParams.time_constant) ∧
    (negParams.stiffness < 0 ∧ negParams.damping < 0) ∧
    (imp_aref negParams 0 (fun _ => 0)).K_f
        = -negParams.stiffness / negParams.d_max ^ 2 ∧
    (imp_aref negParams 0 (fun _ => 0)).D_f
        = -negParams.damping / negParams.d_max := by
  have h1 : 0 ≤ defaultParams.stiffness ∧ 0 ≤ defaultParams.damping := by
    constructor <;> norm_num [defaultParams, RelaxedRigidContactsParams.build]
  have h2 : negParams.stiffness < 0 ∧ negParams.damping < 0 := by
    constructor <;> norm_num [negParams, RelaxedRigidContactsParams.build]
  have a1 := (C6_stiffness_damping_branches defaultParams 0 (fun _ => 0)).1 h1
  have a2 := (C6_stiffness_damping_branches negParams 0 (fun _ => 0)).2 h2
  exact ⟨h1, a1.1, a1.2, h2, a2.1, a2.2⟩

/-- C8: `RelaxedRigidContacts.build` fails with the configuration error iff
some value of the merged solver-options dictionary is unhashable, and on
success it stores exactly the merged options.  (The solve path,
`compute_contact_forces`, is a total function that never inspects
hashability, so this error cannot arise there.) -/
theorem C8_build_hashability (params? : Option RelaxedRigidContactsParams)
    (opts : Option (List (String × PyValue))) :
    ((∃ e, RelaxedRigidContacts.build params? opts = .error e) ↔
        ∃ kv ∈ dictUnion defaultSolverOptions (opts.getD []),
          kv.2.hashable = false) ∧
      ∀ c, RelaxedRigidContacts.build params? opts = .ok c →
        c.solver_options = dictUnion defaultSolverOptions (opts.getD []) := by
  by_cases h : (dictUnion defaultSolverOptions (opts.getD [])).all
      (fun kv => kv.2.hashable)
  · constructor
    · constructor
      · rintro ⟨e, he⟩
        simp [RelaxedRigidContacts.build, h] at he
      · rintro ⟨kv, hkv, hbad⟩
        rw [List.all_eq_true] at h
        have hkv2 := h kv hkv
        rw [hbad] at hkv2
        exact absurd hkv2 (by simp)
    · intro c hc
      simp only [RelaxedRigidContacts.build, h, if_true] at hc
      injection hc with hc
      rw [← hc]
  · constructor
    · constructor
      · intro _
        rw [List.all_eq_true] at h
        push_neg at h
        obtain ⟨kv, hkv, hbad⟩ := h
        exact ⟨kv, hkv, Bool.eq_false_iff.mpr hbad⟩
      · intro _
        exact ⟨"The values of the solver options must be hashable.",
          by simp [RelaxedRigidContacts.build, h]⟩
    · intro c hc
      simp [RelaxedRigidContacts.build, h] at hc

/-- Witness for C8: the all-default construction succeeds, and by the
theorem its stored options are the merged (here: default) options. -/
theorem C8_witness :
    (⟨defaultParams, dictUnion defaultSolverOptions []⟩ :
        RelaxedRigidContacts).solver_options
      = dictUnion defaultSolverOptions [] :=
  (C8_build_hashability none none).2
    ⟨defaultParams, dictUnion defaultSolverOptions []⟩ rfl

/-- C9: `compute_contact_forces` is deterministic — two calls on identical
inputs return identical wrenches and diagnostics.  In this embedding the
solver is a pure function (the source has no hidden mutable state,
randomness or I/O; its only effects are pure array operations under
`jax.jit`), so the two calls are definitionally equal. -/
theorem C9_deterministic {nc nl dof : ℕ} (inp : ContactInputs nc nl dof)
    (params : RelaxedRigidContactsParams) (tol : ℚ)
    (maxiter memory_size : ℕ)
    (ls : (Fin nc × Fin 3 → ℚ) → (Fin nc × Fin 3 → ℚ) → ℚ) :
    compute_contact_forces inp params tol maxiter memory_size ls
      = compute_contact_forces inp params tol maxiter memory_size ls := rfl

/-- C10: `__eq__` compares hashes only — `p == q` iff `hash p = hash q`; in
particular equal objects compare equal under any hash function, and any hash
collision makes two objects compare equal even if their fields differ. -/
theorem C10_eq_is_hash_eq (h : RelaxedRigidContactsParams → ℤ)
    (p q : RelaxedRigidContactsParams) :
    (RelaxedRigidContactsParams.eq h p q = true ↔ h p = h q) ∧
      (p = q → RelaxedRigidContactsParams.eq h p q = true) ∧
      (h p = h q → RelaxedRigidContactsParams.eq h p q = true) := by
  refine ⟨by simp [RelaxedRigidContactsParams.eq], ?_, ?_⟩
  · rintro rfl
    simp [RelaxedRigidContactsParams.eq]
  · intro hpq
    simp [RelaxedRigidContactsParams.eq, hpq]

/-- Witness for C10: under the collision hash `hashZero`, the default
parameters and parameters with a different `mu` compare equal although their
fields differ. -/
theorem C10_witness :
    defaultParams ≠ paramsMuOne ∧
      RelaxedRigidContactsParams.eq hashZero defaultParams paramsMuOne
        = true := by
  constructor
  · intro h
    have h2 := congrArg RelaxedRigidContactsParams.mu h
    norm_num [defaultParams, paramsMuOne,
      RelaxedRigidContactsParams.build] at h2
  · exact (C10_eq_is_hash_eq hashZero defaultParams paramsMuOne).2.2 rfl

/-- C1: for every enabled point `i` with penetration `δ_i ≥ 0` (inactive),
the returned wrench `W_f_C[i]` is exactly the zero 6-vector, for every
Jacobian, inertia, velocity, parameter set, solver option and line search:
the masking zeroes row and column `i` of `A` and the warm start, hence every
gradient, L-BFGS direction and update vanishes on the point's coordinates,
and the zero force lifts to the zero wrench. -/
theorem C1_inactive_point_zero_wrench {nc nl dof : ℕ}
    (inp : ContactInputs nc nl dof) (params : RelaxedRigidContactsParams)
    (tol : ℚ) (maxiter memory_size : ℕ)
    (ls : (Fin nc × Fin 3 → ℚ) → (Fin nc × Fin 3 → ℚ) → ℚ) (i : Fin nc)
    (h : 0 ≤ detect_contact inp i) :
    ∀ a : Fin 6,
      (compute_contact_forces inp params tol maxiter memory_size ls).1 i a
        = 0 := by
  have hmask : (if detect_contact inp i < 0 then (1 : ℚ) else 0) = 0 :=
    if_neg (not_lt.mpr h)
  have hJl : ∀ (a : Fin 3) (d : Fin dof), Jl_WC inp (i, a) d = 0 := by
    intro a d
    show inp.J i a d * (if detect_contact inp i < 0 then (1 : ℚ) else 0) = 0
    rw [hmask, mul_zero]
  have hrow := compute_row_inactive params (block3 (inp.M_L (inp.body i)))
    (detect_contact inp i) (inp.velocity i) h
  have hR : ∀ (j : Fin nc × Fin 3) (a : Fin 3),
      (regularizers inp params).R j (i, a) = 0 := by
    intro j a
    show (if j = (i, a) then (compute_row params
        (block3 (inp.M_L (inp.body j.1))) (detect_contact inp j.1)
        (inp.velocity j.1)).R j.2 else 0) = 0
    rcases eq_or_ne j (i, a) with rfl | hne
    · rw [if_pos rfl]
      show (compute_row params (block3 (inp.M_L (inp.body i)))
        (detect_contact inp i) (inp.velocity i)).R a = 0
      rw [hrow.2.1]
    · rw [if_neg hne]
  have hA : ∀ k : Fin nc × Fin 3, k.1 = i →
      ∀ j, A_mat inp params j k = 0 := by
    rintro ⟨i', a⟩ hk j
    cases hk
    have hG : delassus inp j (i', a) = 0 := by
      unfold delassus
      rw [Matrix.mul_apply]
      apply Finset.sum_eq_zero
      intro d _
      rw [Matrix.mul_apply]
      rw [Finset.sum_eq_zero fun e _ => by
        rw [Matrix.transpose_apply, hJl a e, mul_zero]]
      rw [mul_zero]
    have hRj := hR j a
    show delassus inp j (i', a) + (regularizers inp params).R j (i', a) = 0
    rw [hG, hRj, add_zero]
  have hx0 : Vanishes (fun p : Fin nc × Fin 3 => p.1 = i)
      (init_params inp params) := by
    rintro ⟨i', a⟩ hk
    cases hk
    have hK : (regularizers inp params).K i' = 0 := hrow.2.2.1
    have hD : (regularizers inp params).D i' = 0 := hrow.2.2.2
    show (regularizers inp params).K i'
        * (if a = (2 : Fin 3) then detect_contact inp i' else 0)
      + (regularizers inp params).D i' * inp.velocity i' a = 0
    rw [hK, hD, zero_mul, zero_mul, add_zero]
  have hsol := run_optimization_vanishes
    (fun p : Fin nc × Fin 3 => p.1 = i) (A_mat inp params)
    (b_vec inp params) (init_params inp params) ls memory_size maxiter tol
    hA hx0
  have h0 := hsol (i, 0) rfl
  have h1 := hsol (i, 1) rfl
  have h2 := hsol (i, 2) rfl
  intro a
  show other_representation_to_inertial (inp.W_p_C i)
      ![(run_optimization (A_mat inp params) (b_vec inp params)
          (init_params inp params) ls memory_size maxiter tol).1 (i, 0),
        (run_optimization (A_mat inp params) (b_vec inp params)
          (init_params inp params) ls memory_size maxiter tol).1 (i, 1),
        (run_optimization (A_mat inp params) (b_vec inp params)
          (init_params inp params) ls memory_size maxiter tol).1 (i, 2),
        0, 0, 0] a = 0
  rw [h0, h1, h2]
  fin_cases a <;> simp [other_representation_to_inertial] <;> rfl

/-- Witness for C1: on the concrete one-point input `inp0` the penetration is
1 ≥ 0, and the theorem yields the zero wrench despite the nonzero Jacobian,
velocity and inertia of the point. -/
theorem C1_witness :
    0 ≤ detect_contact inp0 0 ∧
      ∀ a : Fin 6,
        (compute_contact_forces inp0 defaultParams (1 / 1000000) 50 10
          (fun _ _ => 1)).1 0 a = 0 := by
  have h : (0 : ℚ) ≤ detect_contact inp0 0 := by
    norm_num [detect_contact, Fin.sum_univ_three, inp0]
  exact ⟨h, fun a => C1_inactive_point_zero_wrench inp0 defaultParams
    (1 / 1000000) 50 10 (fun _ _ => 1) 0 h a⟩

/-- C5: the claim asserts that the while-loop always runs at least one
iteration and at most `maxiter` iterations.  Counterexample: with
`maxiter = 0` the `k == 0` disjunct forces one iteration, so the loop
executes 1 > maxiter iterations. -/
theorem C5_counterexample :
    ¬ ((run_optimization (ι := Fin 1) (fun _ _ => (0 : ℚ)) (fun _ => 0)
        (fun _ => 0) (fun _ _ => 0) 10 0 (1 / 1000000)).2.count ≤ 0) := by
  decide

/-- C5 (amended): the continuation predicate is exactly
`(k == 0) OR (k < maxiter AND ‖∇f‖₂ ≥ tol)`; the loop always executes at
least one iteration (even when the initial gradient norm is below `tol`,
because of the `k == 0` disjunct) and terminates — the predicate is false at
the returned state — after at most `max 1 maxiter` iterations. -/
theorem C5_predicate_and_iteration_bounds {ι : Type} [Fintype ι]
    (A : Matrix ι ι ℚ) (b x0 : ι → ℚ) (ls : (ι → ℚ) → (ι → ℚ) → ℚ)
    (memory_size maxiter : ℕ) (tol : ℚ) :
    (∀ st : OptState ι,
        continuing_criterion maxiter tol st = spec_predicate maxiter tol st) ∧
      1 ≤ (run_optimization A b x0 ls memory_size maxiter tol).2.count ∧
      (run_optimization A b x0 ls memory_size maxiter tol).2.count
        ≤ max 1 maxiter ∧
      continuing_criterion maxiter tol
        (run_optimization A b x0 ls memory_size maxiter tol).2 = false := by
  refine ⟨fun st => rfl, ?_⟩
  have hc0 : continuing_criterion maxiter tol
      (x0, OptState.init ι).2 = true := rfl
  have hunfold : run_optimization A b x0 ls memory_size maxiter tol
      = runLoop (fun c => continuing_criterion maxiter tol c.2)
        (lbfgs_step A b memory_size ls) maxiter
        (lbfgs_step A b memory_size ls (x0, OptState.init ι)) := by
    unfold run_optimization
    simp only [runLoop, hc0, if_true]
  have hterm := runLoop_term A b memory_size ls maxiter tol maxiter
    (lbfgs_step A b memory_size ls (x0, OptState.init ι))
    (by rw [lbfgs_step_count]; omega)
    (by rw [lbfgs_step_count]; omega)
  have hcount1 : (lbfgs_step A b memory_size ls
      (x0, OptState.init ι)).2.count = 1 := rfl
  rw [hunfold]
  refine ⟨?_, ?_, hterm.1⟩
  · have := hterm.2.1
    rw [hcount1] at this
    exact this
  · have := hterm.2.2
    rw [hcount1] at this
    rw [max_comm]
    exact this

/-- C7: the warm start is, per point, the linear Hunt/Crossley prediction
`F_i = (0, 0, K_f δ_i) + D_f v_i` built from the point's effective stiffness
and damping whenever the point is active, and every entry belonging to a
point with `δ_i ≥ 0` is zero. -/
theorem C7_warm_start {nc nl dof : ℕ} (inp : ContactInputs nc nl dof)
    (params : RelaxedRigidContactsParams) :
    (∀ i : Fin nc, detect_contact inp i < 0 → ∀ a : Fin 3,
        init_params inp params (i, a)
          = (if a = (2 : Fin 3) then
                (imp_aref params (detect_contact inp i) (inp.velocity i)).K_f
                  * detect_contact inp i
              else 0)
            + (imp_aref params (detect_contact inp i) (inp.velocity i)).D_f
              * inp.velocity i a) ∧
    (∀ i : Fin nc, 0 ≤ detect_contact inp i → ∀ a : Fin 3,
        init_params inp params (i, a) = 0) := by
  constructor
  · intro i hi a
    have hm : (if detect_contact inp i < 0 then (1 : ℚ) else 0) = 1 :=
      if_pos hi
    show ((imp_aref params (detect_contact inp i) (inp.velocity i)).K_f
        * (if detect_contact inp i < 0 then (1 : ℚ) else 0))
        * (if a = (2 : Fin 3) then detect_contact inp i else 0)
      + ((imp_aref params (detect_contact inp i) (inp.velocity i)).D_f
        * (if detect_contact inp i < 0 then (1 : ℚ) else 0))
        * inp.velocity i a
      = _
    rw [hm, mul_one, mul_one]
    rcases eq_or_ne a 2 with rfl | hne
    · rw [if_pos rfl, if_pos rfl]
    · rw [if_neg hne, if_neg hne, mul_zero, zero_add]
  · intro i hi a
    have hrow := compute_row_inactive params (block3 (inp.M_L (inp.body i)))
      (detect_contact inp i) (inp.velocity i) hi
    have hK : (regularizers inp params).K i = 0 := hrow.2.2.1
    have hD : (regularizers inp params).D i = 0 := hrow.2.2.2
    show (regularizers inp params).K i
        * (if a = (2 : Fin 3) then detect_contact inp i else 0)
      + (regularizers inp params).D i * inp.velocity i a = 0
    rw [hK, hD, zero_mul, zero_mul, add_zero]

/-- A copy of `inp0` with the point 1 below the terrain (δ = −1, active). -/
def inpAct : ContactInputs 1 1 1 where
  terrain_height := fun _ _ => 0
  terrain_normal := fun _ _ => ![0, 0, 1]
  position := fun _ => ![0, 0, -1]
  velocity := fun _ => ![1, 2, 3]
  J := fun _ => fun _ _ => 5
  J_dot := fun _ => fun _ _ => 7
  W_p_C := fun _ => ![1, 1, 1]
  nu := fun _ => 7
  nu_free := fun _ => 11
  M_pinv := fun _ _ => 13
  M_L := fun _ => fun _ _ => 1
  body := fun _ => 0

/-- Witness for C7: both hypotheses discharged on concrete inputs — the
active point of `inpAct` (δ = −1 < 0) follows the Hunt/Crossley formula and
the inactive point of `inp0` (δ = 1 ≥ 0) has a zero warm start. -/
theorem C7_witness :
    (detect_contact inpAct 0 < 0 ∧
      init_params inpAct defaultParams (0, 2)
        = (imp_aref defaultParams (detect_contact inpAct 0)
              (inpAct.velocity 0)).K_f * detect_contact inpAct 0
          + (imp_aref defaultParams (detect_contact inpAct 0)
              (inpAct.velocity 0)).D_f * inpAct.velocity 0 2) ∧
    (0 ≤ detect_contact inp0 0 ∧
      init_params inp0 defaultParams (0, 1) = 0) := by
  have hact : detect_contact inpAct 0 < 0 := by
    norm_num [detect_contact, Fin.sum_univ_three, inpAct]
  have hinact : (0 : ℚ) ≤ detect_contact inp0 0 := by
    norm_num [detect_contact, Fin.sum_univ_three, inp0]
  constructor
  · refine ⟨hact, ?_⟩
    have h := (C7_warm_start inpAct defaultParams).1 0 hact 2
    rw [h, if_pos rfl]
  · exact ⟨hinact, (C7_warm_start inp0 defaultParams).2 0 hinact 1⟩

end RelaxedRigid
